import Mathlib

/- Shallow embedding of the imagemagick desktop maker scripts.
   Current generation: imagemagick_desktop_maker.py.
   Older generation: imagemagick-desktop-maker.py.
   File names are modelled as a stem plus an extension, as returned by
   os.path.splitext(os.path.basename(...)); the filesystem is modelled as the
   list of existing path strings; Python dicts are insertion-ordered
   association lists and Python sets are insertion-ordered duplicate-free
   lists.  Pixel operations delegated to PIL are modelled at the channel
   level with the documented alpha blend, which is exact at the mask values
   0 and 255 used by the claims. -/

/-- Result of os.path.splitext(os.path.basename(name)): stem and extension. -/
structure PyFile where
  stem : String
  ext : String
deriving DecidableEq

/-- Helper for str.removeprefix and str.startswith: drop a leading char list
when it is present, and report failure otherwise. -/
def dropPreAux : List Char → List Char → Option (List Char)
  | [], s => some s
  | _ :: _, [] => none
  | a :: as, b :: bs => if a = b then dropPreAux as bs else none

/-- Python str.removeprefix: drop the marker when the string starts with it,
otherwise return the string unchanged. -/
def removePre (s p : String) : String :=
  String.mk ((dropPreAux p.data s.data).getD s.data)

/-- Python str.startswith. -/
def strStarts (s p : String) : Bool :=
  (dropPreAux p.data s.data).isSome

/-- Python str.split on the slash character, accumulator based. -/
def splitSlashAux : List Char → List Char → List (List Char)
  | [], acc => [acc.reverse]
  | c :: rest, acc =>
    if c = '/' then acc.reverse :: splitSlashAux rest [] else splitSlashAux rest (c :: acc)

/-- Python style.split on the slash character. -/
def splitSlash (s : String) : List String :=
  (splitSlashAux s.data []).map String.mk

/-- The Python membership test of a slash inside a style name. -/
def hasSlash (s : String) : Bool := s.data.contains '/'

/-- os.path.join of two components. -/
def joinPath (a b : String) : String := a ++ "/" ++ b

/-- Extensions accepted by the scan loop of the current generation. -/
def supportedExts : List String := [".jpg", ".jpeg", ".png"]

/-- Output path of one (wallpaper, mask, style) triple, exactly as computed by
the missing-render scan and by the render list builder of the current
generation: outdir/motive/imgname/(style).jpg, where a style of the form
Family/Color is flattened to the file name parts[1] ++ parts[0] without its
Color marker ++ ".jpg". -/
def outPathFor (outdir motive imgname style : String) : String :=
  if hasSlash style then
    joinPath (joinPath (joinPath outdir motive) imgname)
      ((splitSlash style).getD 1 "" ++ removePre ((splitSlash style).getD 0 "") "Color" ++ ".jpg")
  else
    joinPath (joinPath (joinPath outdir motive) imgname) (style ++ ".jpg")

/-- Lookup in an association list modelling a Python dict. -/
def alLookup {α β : Type} [DecidableEq α] (k : α) : List (α × β) → Option β
  | [] => none
  | (a, b) :: rest => if a = k then some b else alLookup k rest

/-- Update or append one key of an association list modelling a Python dict. -/
def alUpdate {α β : Type} [DecidableEq α] (k : α) (f : Option β → β) :
    List (α × β) → List (α × β)
  | [] => [(k, f none)]
  | (a, b) :: rest => if a = k then (a, f (some b)) :: rest else (a, b) :: alUpdate k f rest

/-- Python set.add on an insertion-ordered duplicate-free list; also the
guarded list append of the scan loop, which only appends an absent style. -/
def setAdd {α : Type} [DecidableEq α] (l : List α) (x : α) : List α :=
  if x ∈ l then l else l ++ [x]

abbrev StyleList := List String
abbrev MotiveMap := List (PyFile × StyleList)
abbrev WorkIndex := List (PyFile × MotiveMap)

/-- One insertion of the scan loop into the nested missing dict: create the
wallpaper key and the mask key when absent, then append the style when it is
not yet recorded. -/
def wiInsert (wi : WorkIndex) (img motive : PyFile) (style : String) : WorkIndex :=
  alUpdate img (fun mm => alUpdate motive (fun sl => setAdd (sl.getD []) style) (mm.getD [])) wi

/-- The styles recorded under missing[img][motive]. -/
def wiStyles (wi : WorkIndex) (img motive : PyFile) : StyleList :=
  (alLookup motive ((alLookup img wi).getD [])).getD []

/-- Innermost loop of the missing-render scan: one wallpaper, one mask, every
style; ex is os.path.exists on the output path. -/
def scanStylesFold (outdir : String) (ex : String → Bool) (i m : PyFile)
    (styles : List String) (wi : WorkIndex) : WorkIndex :=
  styles.foldl (fun acc style =>
    if ex (outPathFor outdir m.stem i.stem style) then acc else wiInsert acc i m style) wi

/-- Middle loop of the missing-render scan: one wallpaper, every mask. -/
def scanMotivesFold (outdir : String) (ex : String → Bool) (i : PyFile)
    (motives : List PyFile) (styles : List String) (wi : WorkIndex) : WorkIndex :=
  motives.foldl (fun acc motive => scanStylesFold outdir ex i motive styles acc) wi

/-- Missing-render scan of the current generation main: wallpaper files whose
extension is unsupported are skipped with a warning; every other absent
(wallpaper, mask, style) triple is recorded in the missing dict. -/
def scan (imgs motives : List PyFile) (styles : List String) (ex : String → Bool)
    (outdir : String) : WorkIndex :=
  imgs.foldl (fun acc img =>
    if img.ext ∈ supportedExts then scanMotivesFold outdir ex img motives styles acc else acc) []

/-- Effects required per style: the if chain of the render stage of the
current generation main, in source order. -/
def requiredEffects (style : String) : List String :=
  if strStarts style "ColorOverlayBlur" then ["blurred"]
  else if style = "Blur" then ["blurred_dark", "brightened"]
  else if style = "InverseBlur" then ["blurred_dark"]
  else if style = "InverseBlurDarker" then ["blurred_darker"]
  else if style = "Flip" then ["flipped"]
  else if style = "Negate" then ["negated"]
  else if style = "InverseNegate" then ["negated"]
  else if style = "Pixelate" then ["pixelated"]
  else if style = "InversePixelate" then ["pixelated"]
  else []

/-- Union of per-element lists collected into a Python set, modelled as an
insertion-ordered duplicate-free list. -/
def unionFold {α β : Type} [DecidableEq α] (g : β → List α) (l : List β) : List α :=
  l.foldl (fun acc b => (g b).foldl setAdd acc) []

/-- need_style of the cache-copy loop: every style missing for one wallpaper,
over all of its masks.  The source then sorts this set; sorting only changes
the task order, which no claim mentions, so it is left out. -/
def needStyles (mm : MotiveMap) : List String := unionFold (fun me => me.2) mm

/-- effect_set of the render stage: the effects needed by a style list. -/
def effectSetOf (styles_list : List String) : List String := unionFold requiredEffects styles_list

/-- Value of the loop variable motive when the render list is built: the
cache-copy loop reassigns it for every mask of every wallpaper of the missing
dict, so it ends as the stem of the last mask of the last wallpaper; when the
missing dict is empty it keeps a leftover value from the scan loop, passed
here as dflt. -/
def staleMotive (wi : WorkIndex) (dflt : String) : String :=
  wi.foldl (fun acc e => e.2.foldl (fun _ me => me.1.stem) acc) dflt

/-- Output paths of the compose tasks built by the render list builder of the
current generation: for each wallpaper of the missing dict, one task per
style of needStyles, every one computing its output path with the stale
motive variable instead of the mask of its own triple. -/
def renderTasks (wi : WorkIndex) (outdir : String) (dflt : String) : List String :=
  let motive := staleMotive wi dflt
  wi.foldl (fun acc e =>
    acc ++ (needStyles e.2).map (fun style => outPathFor outdir motive e.1.stem style)) []

/-- Final output paths written by one full run: the scan computes the missing
dict against the filesystem fs, the render list is built, and each compose
task writes its output only when the path does not exist yet, exactly the
guard of Render.render. -/
def runWrites (imgs motives : List PyFile) (styles : List String) (outdir dflt : String)
    (fs : List String) : List String :=
  (renderTasks (scan imgs motives styles (fun p => fs.contains p) outdir) outdir dflt).foldl
    (fun acc o => if (fs ++ acc).contains o then acc else acc ++ [o]) []

/-- masklist of the current generation: a Python set of (mask file, wallpaper
size) keys collected over the missing dict; the pool later runs exactly one
rasterization task per element of this set. -/
def newMaskList (wi : WorkIndex) (size : PyFile → Nat × Nat) : List (PyFile × (Nat × Nat)) :=
  wi.foldl (fun acc e => e.2.foldl (fun a me => setAdd a (me.1, size e.1)) acc) []

/-- Rasterization keys of the older generation masklist: its planning loop
appends one task per (svg, wallpaper) pair, each rasterized at the size of
its wallpaper, with no dedup of equal (mask, size) keys. -/
def oldMaskTasks (walls : List (PyFile × (Nat × Nat))) (svgs : List String) :
    List (String × (Nat × Nat)) :=
  walls.foldl (fun acc w => acc ++ svgs.map (fun svg => (svg, w.2))) []

/-- Process state observed by the temp directory lifecycle claims. -/
structure ProcState where
  tempExists : Bool
deriving DecidableEq

/-- One pipeline stage: it transforms the state and may raise an exception. -/
abbrev Stage := ProcState → ProcState × Option String

/-- Sequential execution of the stages; a raised exception skips the rest. -/
def runSeq (stages : List Stage) (s : ProcState) : ProcState × Option String :=
  stages.foldl (fun acc st =>
    match acc with
    | (s1, none) => st s1
    | (s1, some e) => (s1, some e)) (s, none)

/-- shutil.rmtree of the process temp directory. -/
def removeTemp (s : ProcState) : ProcState := { s with tempExists := false }

/-- Current generation main: the stages run inside try and the removal is in
the finally block, after a pool close that swallows its own exceptions, so
the removal happens on every exit path of the stages. -/
def mainCurrent (stages : List Stage) (s : ProcState) : ProcState × Option String :=
  (removeTemp (runSeq stages s).1, (runSeq stages s).2)

/-- Older generation main: the removal is the last statement of main with no
try and no finally, so it only happens when no stage raised. -/
def mainOldGen (stages : List Stage) (s : ProcState) : ProcState × Option String :=
  match runSeq stages s with
  | (s1, none) => (removeTemp s1, none)
  | (s1, some e) => (s1, some e)

/-- A stage whose single task fails, as a concrete counterexample input. -/
def failingStage : Stage := fun s => (s, some "task failure")

abbrev RGB := Nat × Nat × Nat

/-- PIL alpha blend of one channel for paste and composite under a mask value
m between 0 and 255; exact at 0 and at 255, the two values the claims use. -/
def blendChannel (m s d : Nat) : Nat := (s * m + d * (255 - m)) / 255

/-- PIL alpha blend of one pixel. -/
def blendPx (m : Nat) (s d : RGB) : RGB :=
  (blendChannel m s.1 d.1, blendChannel m s.2.1 d.2.1, blendChannel m s.2.2 d.2.2)

/-- A raster image: dimensions plus a pixel map. -/
structure Img where
  width : Nat
  height : Nat
  px : Nat → Nat → RGB

/-- Render.through_black: a new black RGB canvas of the wallpaper size, with
the wallpaper pasted through the mask alpha channel. -/
def through_black (mask : Nat → Nat → Nat) (wal : Img) : Img :=
  { width := wal.width, height := wal.height,
    px := fun x y => blendPx (mask x y) (wal.px x y) (0, 0, 0) }

/-- The alpha raise of Render.color_through: max(item, 127) over every value
of the mask alpha band, written back with putalpha before compositing. -/
def colorThroughAlpha (a : Nat) : Nat := max a 127

/-- Render.color_through: the wallpaper composited over a solid color canvas
of its own size through the raised mask alpha. -/
def color_through (maskAlpha : Nat → Nat → Nat) (wal : Img) (color : RGB) : Img :=
  { width := wal.width, height := wal.height,
    px := fun x y => blendPx (colorThroughAlpha (maskAlpha x y)) (wal.px x y) color }

/-- compute_chunksize of the current generation, over Python ints; Python
floor division is Int.fdiv, and the only falsy int is zero.  The try block
around the int conversion never fires for int arguments. -/
def compute_chunksize (n_tasks n_workers : Int) : Int :=
  let w := if n_workers = 0 then 1 else n_workers
  if n_tasks ≤ 0 then 1 else max 1 (Int.fdiv n_tasks (max 1 (w * 4)))

/-- Temp image pointers of the older generation render dispatcher, reduced to
the two fields that determine output paths. -/
structure OldTempPtrs where
  maskname : String
  walname : String
deriving DecidableEq

/-- Output path written by one style function of the older generation. -/
def oldOutPath (outdir style : String) (t : OldTempPtrs) : String :=
  joinPath (joinPath (joinPath outdir style) t.maskname) (t.walname ++ ".jpg")

/-- Filesystem effect of one older generation style function: write the
output when it is absent, exactly the existence guard each of the ten
functions carries. -/
def oldStyleWrite (outdir style : String) (t : OldTempPtrs) (fs : List String) : List String :=
  if oldOutPath outdir style t ∈ fs then fs else fs ++ [oldOutPath outdir style t]

/-- Keys of the dispatch dict literal of the older generation render, in
evaluation order. -/
def oldDispatchOrder : List String :=
  ["BlackOverlay", "Blur", "Flip", "InverseBlur", "InverseBlurDarker",
   "InverseNegate", "Negate", "Pixelate", "ThroughBlack", "WhiteOverlay"]

/-- Older generation render: building the dict literal evaluates all ten
style calls, in order, before the lookup; the later get on the method returns
a stored value and performs no filesystem effect. -/
def render_old (outdir : String) (t : OldTempPtrs) (method : String) (fs : List String) :
    List String :=
  let fs1 := oldDispatchOrder.foldl (fun f st => oldStyleWrite outdir st t f) fs
  let switch : List (String × Unit) := oldDispatchOrder.map (fun st => (st, ()))
  let _found := alLookup method switch
  fs1

/-- Concrete wallpaper used by witnesses. -/
def cWal : Img := { width := 2, height := 2, px := fun x y => (10 * x + 1, y + 2, 3) }

/-- Concrete scan inputs: two wallpapers, three masks, four styles. -/
def cImgs : List PyFile := [⟨"w1", ".jpg"⟩, ⟨"w2", ".png"⟩]

def cMotives : List PyFile := [⟨"m1", ".svg"⟩, ⟨"m2", ".svg"⟩, ⟨"m3", ".svg"⟩]

def cStyles : List String := ["Blur", "Flip", "Negate", "ThroughBlack"]

/-- Five outputs already present on disk. -/
def cExisting : List String :=
  [outPathFor "out" "m1" "w1" "Blur", outPathFor "out" "m2" "w1" "Flip",
   outPathFor "out" "m3" "w1" "Negate", outPathFor "out" "m1" "w2" "ThroughBlack",
   outPathFor "out" "m2" "w2" "Blur"]

/-- os.path.exists for the concrete scan inputs. -/
def cEx : String → Bool := fun p => cExisting.contains p

/-- Concrete failing input of the stale-motive slip: one wallpaper, two
masks, one style, empty output tree. -/
def cImgs2 : List PyFile := [⟨"w", ".jpg"⟩]

def cMotives2 : List PyFile := [⟨"m1", ".svg"⟩, ⟨"m2", ".svg"⟩]

def cStyles2 : List String := ["ThroughBlack"]

theorem blendChannel_at255 (s d : Nat) : blendChannel 255 s d = s := by
  unfold blendChannel
  simp [Nat.mul_div_cancel]

theorem blendChannel_at0 (s d : Nat) : blendChannel 0 s d = d := by
  unfold blendChannel
  simp [Nat.mul_div_cancel]

theorem blendPx_at255 (s d : RGB) : blendPx 255 s d = s := by
  show (blendChannel 255 s.1 d.1, blendChannel 255 s.2.1 d.2.1, blendChannel 255 s.2.2 d.2.2) = s
  rw [blendChannel_at255, blendChannel_at255, blendChannel_at255]

theorem blendPx_at0 (s d : RGB) : blendPx 0 s d = d := by
  show (blendChannel 0 s.1 d.1, blendChannel 0 s.2.1 d.2.1, blendChannel 0 s.2.2 d.2.2) = d
  rw [blendChannel_at0, blendChannel_at0, blendChannel_at0]

/-- Claim C7: through_black keeps the wallpaper dimensions; under a fully
opaque mask it returns the wallpaper pixel for pixel, and under a fully
transparent mask it returns a solid black image of the same dimensions. -/
theorem c7_through_black (mask : Nat → Nat → Nat) (wal : Img) :
    (through_black mask wal).width = wal.width ∧
    (through_black mask wal).height = wal.height ∧
    ((∀ x y, mask x y = 255) → ∀ x y, (through_black mask wal).px x y = wal.px x y) ∧
    ((∀ x y, mask x y = 0) → ∀ x y, (through_black mask wal).px x y = (0, 0, 0)) := by
  refine ⟨rfl, rfl, ?_, ?_⟩
  · intro h x y
    show blendPx (mask x y) (wal.px x y) (0, 0, 0) = wal.px x y
    rw [h x y, blendPx_at255]
  · intro h x y
    show blendPx (mask x y) (wal.px x y) (0, 0, 0) = (0, 0, 0)
    rw [h x y, blendPx_at0]

/-- Witness for C7 at a concrete wallpaper and the two extreme masks. -/
theorem c7_through_black_witness :
    (through_black (fun _ _ => 255) cWal).px 0 0 = cWal.px 0 0 ∧
    (through_black (fun _ _ => 0) cWal).px 1 1 = (0, 0, 0) :=
  ⟨(c7_through_black (fun _ _ => 255) cWal).2.2.1 (fun _ _ => rfl) 0 0,
   (c7_through_black (fun _ _ => 0) cWal).2.2.2 (fun _ _ => rfl) 1 1⟩

/-- Claim C8: the alpha channel color_through composites with is, at every
pixel, the maximum of the original mask alpha and 127, the 50 percent level;
values below it are raised to exactly 127 and values at or above it are kept;
the composite of the wallpaper over the solid color canvas uses exactly this
raised alpha. -/
theorem c8_color_through_alpha (maskAlpha : Nat → Nat → Nat) (wal : Img) (color : RGB)
    (x y : Nat) :
    colorThroughAlpha (maskAlpha x y) = max (maskAlpha x y) 127 ∧
    colorThroughAlpha (maskAlpha x y) = (if maskAlpha x y < 127 then 127 else maskAlpha x y) ∧
    (color_through maskAlpha wal color).px x y =
      blendPx (max (maskAlpha x y) 127) (wal.px x y) color := by
  refine ⟨rfl, ?_, rfl⟩
  unfold colorThroughAlpha
  rcases Nat.lt_or_ge (maskAlpha x y) 127 with h | h
  · rw [if_pos h, Nat.max_eq_right (Nat.le_of_lt h)]
  · rw [if_neg (Nat.not_lt.mpr h), Nat.max_eq_left h]

/-- Claim C6 (amended part): in the current generation, whatever the stages
do and whether or not any of them raises, main removes the process temp
directory on exit. -/
theorem c6_current_gen_cleanup (stages : List Stage) (s : ProcState) :
    ((mainCurrent stages s).1).tempExists = false := rfl

/-- Counterexample to C6 as stated over every generation: in the older
generation a failing stage propagates its exception past the final rmtree,
and the temp directory still exists when the run exits abnormally. -/
theorem c6_oldgen_counter :
    ((mainOldGen [failingStage] ⟨true⟩).1).tempExists = true ∧
    (mainOldGen [failingStage] ⟨true⟩).2 = some "task failure" := by
  constructor <;> rfl

/-- Claim C9: compute_chunksize always returns at least 1, and for positive
task and worker counts it returns max 1 of the floor division of the task
count by four times the worker count.  The Lean model is a total function,
matching the never-raises part by construction. -/
theorem c9_compute_chunksize (t w : Int) :
    1 ≤ compute_chunksize t w ∧
    (0 < t → 0 < w → compute_chunksize t w = max 1 (Int.fdiv t (w * 4))) := by
  constructor
  · unfold compute_chunksize
    by_cases h : t ≤ 0
    · simp [h]
    · simp only [h, if_false]
      exact le_max_left _ _
  · intro ht hw
    unfold compute_chunksize
    rw [if_neg (by omega)]
    have hw0 : ¬(w = 0) := by omega
    rw [if_neg hw0]
    have h4 : (1 : Int) ≤ w * 4 := by omega
    rw [max_eq_right h4]

/-- Witness for C9 at ten tasks and one worker. -/
theorem c9_compute_chunksize_witness :
    1 ≤ compute_chunksize 10 1 ∧ compute_chunksize 10 1 = max 1 (Int.fdiv 10 (1 * 4)) :=
  ⟨(c9_compute_chunksize 10 1).1, (c9_compute_chunksize 10 1).2 (by decide) (by decide)⟩

theorem mem_setAdd {α : Type} [DecidableEq α] (l : List α) (x y : α) :
    y ∈ setAdd l x ↔ y ∈ l ∨ y = x := by
  unfold setAdd
  by_cases h : x ∈ l
  · simp only [h, if_true]
    constructor
    · exact Or.inl
    · rintro (h1 | h1)
      · exact h1
      · rw [h1]; exact h
  · simp [h]

theorem nodup_setAdd {α : Type} [DecidableEq α] (l : List α) (x : α) (h : l.Nodup) :
    (setAdd l x).Nodup := by
  unfold setAdd
  by_cases hx : x ∈ l
  · simp [hx, h]
  · simp [hx, h, List.nodup_append, List.disjoint_singleton]

theorem foldl_preserve {σ α : Type} (P : σ → Prop) {f : σ → α → σ}
    (h : ∀ s a, P s → P (f s a)) : ∀ (l : List α) (s : σ), P s → P (l.foldl f s) := by
  intro l
  induction l with
  | nil => intro s hs; exact hs
  | cons a l ih => intro s hs; exact ih (f s a) (h s a hs)

theorem mem_foldl_setAdd {α : Type} [DecidableEq α] (es : List α) (acc : List α) (x : α) :
    x ∈ es.foldl setAdd acc ↔ x ∈ acc ∨ x ∈ es := by
  induction es generalizing acc with
  | nil => simp
  | cons a es ih =>
    rw [List.foldl_cons, ih, mem_setAdd]
    simp only [List.mem_cons]
    tauto

theorem mem_unionFoldAux {α β : Type} [DecidableEq α] (g : β → List α) (l : List β)
    (acc : List α) (x : α) :
    x ∈ l.foldl (fun acc b => (g b).foldl setAdd acc) acc ↔
      x ∈ acc ∨ ∃ b ∈ l, x ∈ g b := by
  induction l generalizing acc with
  | nil => simp
  | cons b l ih =>
    rw [List.foldl_cons, ih, mem_foldl_setAdd]
    simp only [List.mem_cons]
    constructor
    · rintro ((h | h) | ⟨c, hc, hx⟩)
      · exact Or.inl h
      · exact Or.inr ⟨b, Or.inl rfl, h⟩
      · exact Or.inr ⟨c, Or.inr hc, hx⟩
    · rintro (h | ⟨c, (hc | hc), hx⟩)
      · exact Or.inl (Or.inl h)
      · exact Or.inl (Or.inr (hc ▸ hx))
      · exact Or.inr ⟨c, hc, hx⟩

theorem mem_unionFold {α β : Type} [DecidableEq α] (g : β → List α) (l : List β) (x : α) :
    x ∈ unionFold g l ↔ ∃ b ∈ l, x ∈ g b := by
  unfold unionFold
  rw [mem_unionFoldAux]
  simp

/-- Claim C3: for every wallpaper of the missing dict, the effect set built
by the render stage is exactly the union, over the styles missing for that
wallpaper, of the required-effects set of each style; the per-style table is
the one the claim lists, and a wallpaper missing only Flip gets exactly the
flipped effect. -/
theorem c3_effect_minimality (mm : MotiveMap) (e : String) :
    (e ∈ effectSetOf (needStyles mm) ↔ ∃ me ∈ mm, ∃ s ∈ me.2, e ∈ requiredEffects s) ∧
    effectSetOf ["Flip"] = ["flipped"] ∧
    requiredEffects "Blur" = ["blurred_dark", "brightened"] ∧
    requiredEffects "InverseBlur" = ["blurred_dark"] ∧
    requiredEffects "InverseBlurDarker" = ["blurred_darker"] ∧
    requiredEffects "Flip" = ["flipped"] ∧
    requiredEffects "Negate" = ["negated"] ∧
    requiredEffects "InverseNegate" = ["negated"] ∧
    requiredEffects "Pixelate" = ["pixelated"] ∧
    requiredEffects "InversePixelate" = ["pixelated"] ∧
    requiredEffects "ColorOverlayBlur/Black" = ["blurred"] ∧
    requiredEffects "ThroughBlack" = [] ∧
    requiredEffects "ColorThrough/Black" = [] := by
  refine ⟨?_, by decide, by decide, by decide, by decide, by decide, by decide, by decide,
    by decide, by decide, by decide, by decide, by decide⟩
  unfold effectSetOf needStyles
  rw [mem_unionFold]
  constructor
  · rintro ⟨s, hs, he⟩
    rw [mem_unionFold] at hs
    obtain ⟨me, hme, hsme⟩ := hs
    exact ⟨me, hme, s, hsme, he⟩
  · rintro ⟨me, hme, s, hsme, he⟩
    refine ⟨s, ?_, he⟩
    rw [mem_unionFold]
    exact ⟨me, hme, hsme⟩

theorem mem_newMaskInner (sz : Nat × Nat) (mm : MotiveMap)
    (acc : List (PyFile × (Nat × Nat))) (k : PyFile × (Nat × Nat)) :
    k ∈ mm.foldl (fun a me => setAdd a (me.1, sz)) acc ↔
      k ∈ acc ∨ ∃ me ∈ mm, k = (me.1, sz) := by
  induction mm generalizing acc with
  | nil => simp
  | cons me mm ih =>
    rw [List.foldl_cons, ih, mem_setAdd]
    simp only [List.mem_cons]
    constructor
    · rintro ((h | h) | ⟨c, hc, hk⟩)
      · exact Or.inl h
      · exact Or.inr ⟨me, Or.inl rfl, h⟩
      · exact Or.inr ⟨c, Or.inr hc, hk⟩
    · rintro (h | ⟨c, (hc | hc), hk⟩)
      · exact Or.inl (Or.inl h)
      · exact Or.inl (Or.inr (hc ▸ hk))
      · exact Or.inr ⟨c, hc, hk⟩

theorem mem_newMaskListAux (size : PyFile → Nat × Nat) (wi : WorkIndex)
    (acc : List (PyFile × (Nat × Nat))) (k : PyFile × (Nat × Nat)) :
    k ∈ wi.foldl (fun acc e => e.2.foldl (fun a me => setAdd a (me.1, size e.1)) acc) acc ↔
      k ∈ acc ∨ ∃ e ∈ wi, ∃ me ∈ e.2, k = (me.1, size e.1) := by
  induction wi generalizing acc with
  | nil => simp
  | cons e wi ih =>
    rw [List.foldl_cons, ih, mem_newMaskInner]
    simp only [List.mem_cons]
    constructor
    · rintro ((h | ⟨me, hme, hk⟩) | ⟨c, hc, me, hme, hk⟩)
      · exact Or.inl h
      · exact Or.inr ⟨e, Or.inl rfl, me, hme, hk⟩
      · exact Or.inr ⟨c, Or.inr hc, me, hme, hk⟩
    · rintro (h | ⟨c, (hc | hc), me, hme, hk⟩)
      · exact Or.inl (Or.inl h)
      · subst hc; exact Or.inl (Or.inr ⟨me, hme, hk⟩)
      · exact Or.inr ⟨c, hc, me, hme, hk⟩

theorem nodup_newMaskList (wi : WorkIndex) (size : PyFile → Nat × Nat) :
    (newMaskList wi size).Nodup := by
  unfold newMaskList
  refine foldl_preserve (fun l : List (PyFile × (Nat × Nat)) => l.Nodup) ?_ wi [] List.nodup_nil
  intro a e ha
  exact foldl_preserve (fun l : List (PyFile × (Nat × Nat)) => l.Nodup)
    (fun l me hl => nodup_setAdd _ _ hl) e.2 a ha

/-- Claim C5 (amended part): in the current generation the planning stage
collects mask rasterization keys into a set, so each distinct (mask, size)
pair appears at most once in the scheduled list, and a key is scheduled
exactly when some wallpaper of that size has that mask in the missing dict;
in particular two wallpapers of identical size needing the same mask share
one single entry. -/
theorem c5_current_planning_dedup (wi : WorkIndex) (size : PyFile → Nat × Nat) :
    (newMaskList wi size).Nodup ∧
    ∀ k, k ∈ newMaskList wi size ↔ ∃ e ∈ wi, ∃ me ∈ e.2, k = (me.1, size e.1) := by
  refine ⟨nodup_newMaskList wi size, ?_⟩
  intro k
  unfold newMaskList
  rw [mem_newMaskListAux]
  simp

/-- Counterexample to C5 as stated over every run of the repository: the
older generation plans one rasterization per (svg, wallpaper) pair, so two
wallpapers of identical 100 by 100 size that both need mask m.svg produce
two scheduled rasterizations of the key (m.svg, (100, 100)). -/
theorem c5_oldgen_counter :
    (oldMaskTasks [(⟨"w1", ".jpg"⟩, (100, 100)), (⟨"w2", ".jpg"⟩, (100, 100))]
      ["m.svg"]).count ("m.svg", (100, 100)) = 2 := by decide

theorem mem_oldStyleWrite_self (outdir st : String) (t : OldTempPtrs) (fs : List String) :
    oldOutPath outdir st t ∈ oldStyleWrite outdir st t fs := by
  unfold oldStyleWrite
  by_cases h : oldOutPath outdir st t ∈ fs
  · simp [h]
  · simp [h]

theorem mem_oldStyleWrite_mono (outdir st : String) (t : OldTempPtrs) (fs : List String)
    (x : String) (h : x ∈ fs) : x ∈ oldStyleWrite outdir st t fs := by
  unfold oldStyleWrite
  by_cases hc : oldOutPath outdir st t ∈ fs <;> simp [hc, h]

theorem mem_oldWriteFold_mono (outdir : String) (t : OldTempPtrs) (l : List String) :
    ∀ (fs : List String) (x : String), x ∈ fs →
      x ∈ l.foldl (fun f st => oldStyleWrite outdir st t f) fs := by
  induction l with
  | nil => intro fs x h; exact h
  | cons a l ih =>
    intro fs x h
    rw [List.foldl_cons]
    exact ih _ _ (mem_oldStyleWrite_mono _ _ _ _ _ h)

theorem mem_oldWriteFold (outdir : String) (t : OldTempPtrs) (st : String) :
    ∀ (l : List String) (fs : List String), st ∈ l →
      oldOutPath outdir st t ∈ l.foldl (fun f s2 => oldStyleWrite outdir s2 t f) fs := by
  intro l
  induction l with
  | nil => intro fs h; cases h
  | cons a l ih =>
    intro fs h
    rw [List.foldl_cons]
    rcases List.mem_cons.mp h with h1 | h1
    · subst h1
      exact mem_oldWriteFold_mono _ _ _ _ _ (mem_oldStyleWrite_self _ _ _ _)
    · exact ih _ h1

/-- Claim C10: the filesystem effect of the older generation render is
independent of the method argument, because the dict literal calls all ten
style functions while it is built and the later get performs no effect; for
any two methods the resulting filesystems agree, and every one of the ten
style output paths is present afterwards. -/
theorem c10_render_method_independent (outdir : String) (t : OldTempPtrs)
    (m1 m2 : String) (fs : List String) :
    render_old outdir t m1 fs = render_old outdir t m2 fs ∧
    ∀ st, st ∈ oldDispatchOrder → oldOutPath outdir st t ∈ render_old outdir t m1 fs := by
  constructor
  · rfl
  · intro st hst
    show oldOutPath outdir st t ∈
      oldDispatchOrder.foldl (fun f s2 => oldStyleWrite outdir s2 t f) fs
    exact mem_oldWriteFold outdir t st oldDispatchOrder fs hst

/-- Witness for C10 at concrete pointers, two distinct methods and the empty
filesystem. -/
theorem c10_render_method_independent_witness :
    render_old "out" ⟨"m", "w"⟩ "Negate" [] = render_old "out" ⟨"m", "w"⟩ "Flip" [] ∧
    oldOutPath "out" "Blur" ⟨"m", "w"⟩ ∈ render_old "out" ⟨"m", "w"⟩ "Negate" [] :=
  ⟨(c10_render_method_independent "out" ⟨"m", "w"⟩ "Negate" "Flip" []).1,
   (c10_render_method_independent "out" ⟨"m", "w"⟩ "Negate" "Flip" []).2 "Blur" (by decide)⟩

theorem alLookup_alUpdate_self {α β : Type} [DecidableEq α] (k : α) (f : Option β → β)
    (l : List (α × β)) : alLookup k (alUpdate k f l) = some (f (alLookup k l)) := by
  induction l with
  | nil => simp [alUpdate, alLookup]
  | cons p rest ih =>
    obtain ⟨a, b⟩ := p
    by_cases h : a = k
    · subst h
      simp [alUpdate, alLookup]
    · simp [alUpdate, alLookup, h, ih]

theorem alLookup_alUpdate_ne {α β : Type} [DecidableEq α] (k j : α) (f : Option β → β)
    (l : List (α × β)) (h : j ≠ k) : alLookup j (alUpdate k f l) = alLookup j l := by
  induction l with
  | nil => simp [alUpdate, alLookup, Ne.symm h]
  | cons p rest ih =>
    obtain ⟨a, b⟩ := p
    by_cases hak : a = k
    · subst hak
      simp [alUpdate, alLookup, Ne.symm h]
    · simp [alUpdate, alLookup, hak, ih]

theorem wiStyles_nil (i m : PyFile) : wiStyles ([] : WorkIndex) i m = [] := rfl

theorem wiStyles_wiInsert_self (wi : WorkIndex) (i m : PyFile) (s : String) :
    wiStyles (wiInsert wi i m s) i m = setAdd (wiStyles wi i m) s := by
  unfold wiStyles wiInsert
  rw [alLookup_alUpdate_self]
  simp only [Option.getD_some]
  rw [alLookup_alUpdate_self]
  simp only [Option.getD_some]

theorem wiStyles_wiInsert_ne (wi : WorkIndex) (i m : PyFile) (s : String) (i2 m2 : PyFile)
    (h : ¬(i2 = i ∧ m2 = m)) :
    wiStyles (wiInsert wi i m s) i2 m2 = wiStyles wi i2 m2 := by
  by_cases hi : i2 = i
  · subst hi
    have hm : m2 ≠ m := fun hm => h ⟨rfl, hm⟩
    unfold wiStyles wiInsert
    rw [alLookup_alUpdate_self]
    simp only [Option.getD_some]
    rw [alLookup_alUpdate_ne _ _ _ _ hm]
  · unfold wiStyles wiInsert
    rw [alLookup_alUpdate_ne _ _ _ _ hi]

theorem mem_scanStylesFold (outdir : String) (ex : String → Bool) (i m : PyFile)
    (styles : List String) (wi : WorkIndex) (i2 m2 : PyFile) (s2 : String) :
    s2 ∈ wiStyles (scanStylesFold outdir ex i m styles wi) i2 m2 ↔
      s2 ∈ wiStyles wi i2 m2 ∨
        (i2 = i ∧ m2 = m ∧ s2 ∈ styles ∧ ex (outPathFor outdir m.stem i.stem s2) = false) := by
  induction styles generalizing wi with
  | nil => simp [scanStylesFold]
  | cons st rest ih =>
    have hstep : scanStylesFold outdir ex i m (st :: rest) wi =
        scanStylesFold outdir ex i m rest
          (if ex (outPathFor outdir m.stem i.stem st) then wi else wiInsert wi i m st) := rfl
    rw [hstep, ih]
    cases hex : ex (outPathFor outdir m.stem i.stem st) with
    | true =>
      rw [if_pos rfl]
      constructor
      · rintro (h | ⟨h1, h2, h3, h4⟩)
        · exact Or.inl h
        · exact Or.inr ⟨h1, h2, List.mem_cons_of_mem _ h3, h4⟩
      · rintro (h | ⟨h1, h2, h3, h4⟩)
        · exact Or.inl h
        · rcases List.mem_cons.mp h3 with h5 | h5
          · subst h5
            rw [h4] at hex
            cases hex
          · exact Or.inr ⟨h1, h2, h5, h4⟩
    | false =>
      rw [if_neg Bool.false_ne_true]
      by_cases hk : i2 = i ∧ m2 = m
      · obtain ⟨h1, h2⟩ := hk
        subst h1
        subst h2
        rw [wiStyles_wiInsert_self, mem_setAdd]
        constructor
        · rintro ((h | h) | ⟨h1, h2, h3, h4⟩)
          · exact Or.inl h
          · subst h
            exact Or.inr ⟨rfl, rfl, List.mem_cons_self _ _, hex⟩
          · exact Or.inr ⟨rfl, rfl, List.mem_cons_of_mem _ h3, h4⟩
        · rintro (h | ⟨h1, h2, h3, h4⟩)
          · exact Or.inl (Or.inl h)
          · rcases List.mem_cons.mp h3 with h5 | h5
            · exact Or.inl (Or.inr h5)
            · exact Or.inr ⟨rfl, rfl, h5, h4⟩
      · rw [wiStyles_wiInsert_ne _ _ _ _ _ _ hk]
        constructor
        · rintro (h | ⟨h1, h2, h3, h4⟩)
          · exact Or.inl h
          · exact absurd ⟨h1, h2⟩ hk
        · rintro (h | ⟨h1, h2, h3, h4⟩)
          · exact Or.inl h
          · exact absurd ⟨h1, h2⟩ hk

theorem mem_scanMotivesFold (outdir : String) (ex : String → Bool) (i : PyFile)
    (motives : List PyFile) (styles : List String) (wi : WorkIndex) (i2 m2 : PyFile)
    (s2 : String) :
    s2 ∈ wiStyles (scanMotivesFold outdir ex i motives styles wi) i2 m2 ↔
      s2 ∈ wiStyles wi i2 m2 ∨
        (i2 = i ∧ m2 ∈ motives ∧ s2 ∈ styles ∧
          ex (outPathFor outdir m2.stem i.stem s2) = false) := by
  induction motives generalizing wi with
  | nil => simp [scanMotivesFold]
  | cons mo rest ih =>
    have hstep : scanMotivesFold outdir ex i (mo :: rest) styles wi =
        scanMotivesFold outdir ex i rest styles (scanStylesFold outdir ex i mo styles wi) := rfl
    rw [hstep, ih, mem_scanStylesFold]
    constructor
    · rintro ((h | ⟨h1, h2, h3, h4⟩) | ⟨h1, h2, h3, h4⟩)
      · exact Or.inl h
      · subst h2
        exact Or.inr ⟨h1, List.mem_cons_self _ _, h3, h4⟩
      · exact Or.inr ⟨h1, List.mem_cons_of_mem _ h2, h3, h4⟩
    · rintro (h | ⟨h1, h2, h3, h4⟩)
      · exact Or.inl (Or.inl h)
      · rcases List.mem_cons.mp h2 with h5 | h5
        · subst h5
          exact Or.inl (Or.inr ⟨h1, rfl, h3, h4⟩)
        · exact Or.inr ⟨h1, h5, h3, h4⟩

theorem mem_scanImgsAux (outdir : String) (ex : String → Bool) (motives : List PyFile)
    (styles : List String) (imgs : List PyFile) (wi : WorkIndex) (i2 m2 : PyFile)
    (s2 : String) :
    s2 ∈ wiStyles (imgs.foldl (fun acc img =>
        if img.ext ∈ supportedExts then scanMotivesFold outdir ex img motives styles acc
        else acc) wi) i2 m2 ↔
      s2 ∈ wiStyles wi i2 m2 ∨
        (i2 ∈ imgs ∧ i2.ext ∈ supportedExts ∧ m2 ∈ motives ∧ s2 ∈ styles ∧
          ex (outPathFor outdir m2.stem i2.stem s2) = false) := by
  induction imgs generalizing wi with
  | nil => simp
  | cons im rest ih =>
    rw [List.foldl_cons, ih]
    by_cases hext : im.ext ∈ supportedExts
    · rw [if_pos hext, mem_scanMotivesFold]
      constructor
      · rintro ((h | ⟨h1, h2, h3, h4⟩) | ⟨h1, h2, h3, h4, h5⟩)
        · exact Or.inl h
        · subst h1
          exact Or.inr ⟨List.mem_cons_self _ _, hext, h2, h3, h4⟩
        · exact Or.inr ⟨List.mem_cons_of_mem _ h1, h2, h3, h4, h5⟩
      · rintro (h | ⟨h1, h2, h3, h4, h5⟩)
        · exact Or.inl (Or.inl h)
        · rcases List.mem_cons.mp h1 with h6 | h6
          · subst h6
            exact Or.inl (Or.inr ⟨rfl, h3, h4, h5⟩)
          · exact Or.inr ⟨h6, h2, h3, h4, h5⟩
    · rw [if_neg hext]
      constructor
      · rintro (h | ⟨h1, h2, h3, h4, h5⟩)
        · exact Or.inl h
        · exact Or.inr ⟨List.mem_cons_of_mem _ h1, h2, h3, h4, h5⟩
      · rintro (h | ⟨h1, h2, h3, h4, h5⟩)
        · exact Or.inl h
        · rcases List.mem_cons.mp h1 with h6 | h6
          · subst h6
            exact absurd h2 hext
          · exact Or.inr ⟨h6, h2, h3, h4, h5⟩

theorem mem_scan (imgs motives : List PyFile) (styles : List String) (ex : String → Bool)
    (outdir : String) (i2 m2 : PyFile) (s2 : String) :
    s2 ∈ wiStyles (scan imgs motives styles ex outdir) i2 m2 ↔
      (i2 ∈ imgs ∧ i2.ext ∈ supportedExts ∧ m2 ∈ motives ∧ s2 ∈ styles ∧
        ex (outPathFor outdir m2.stem i2.stem s2) = false) := by
  unfold scan
  rw [mem_scanImgsAux, wiStyles_nil]
  simp

theorem wiNodup_wiInsert (wi : WorkIndex) (i m : PyFile) (s : String)
    (h : ∀ a b, (wiStyles wi a b).Nodup) :
    ∀ a b, (wiStyles (wiInsert wi i m s) a b).Nodup := by
  intro a b
  by_cases hk : a = i ∧ b = m
  · obtain ⟨h1, h2⟩ := hk
    subst h1
    subst h2
    rw [wiStyles_wiInsert_self]
    exact nodup_setAdd _ _ (h a b)
  · rw [wiStyles_wiInsert_ne _ _ _ _ _ _ hk]
    exact h a b

theorem scan_nodup (imgs motives : List PyFile) (styles : List String) (ex : String → Bool)
    (outdir : String) :
    ∀ i m, (wiStyles (scan imgs motives styles ex outdir) i m).Nodup := by
  unfold scan
  refine foldl_preserve (fun wi : WorkIndex => ∀ a b, (wiStyles wi a b).Nodup) ?_ imgs [] ?_
  · intro wi img hwi
    by_cases hext : img.ext ∈ supportedExts
    · rw [if_pos hext]
      unfold scanMotivesFold
      refine foldl_preserve (fun w : WorkIndex => ∀ a b, (wiStyles w a b).Nodup) ?_ motives wi hwi
      intro w mo hw
      unfold scanStylesFold
      refine foldl_preserve (fun w2 : WorkIndex => ∀ a b, (wiStyles w2 a b).Nodup) ?_ styles w hw
      intro w2 st hw2
      cases hex : ex (outPathFor outdir mo.stem img.stem st) with
      | true =>
        rw [if_pos rfl]
        exact hw2
      | false =>
        rw [if_neg Bool.false_ne_true]
        exact wiNodup_wiInsert _ _ _ _ hw2
    · rw [if_neg hext]
      exact hwi
  · intro a b
    rw [wiStyles_nil]
    exact List.nodup_nil

/-- Claim C1: given the ordered wallpaper, mask and style lists, the scan of
the current generation records a style under missing[wallpaper][mask] exactly
when the triple belongs to the cross product and its output path does not
exist, and the recorded list for every (wallpaper, mask) pair has no
duplicates, so no triple is reported twice and no existing triple appears. -/
theorem c1_missing_work_scan (imgs motives : List PyFile) (styles : List String)
    (ex : String → Bool) (outdir : String)
    (h : ∀ f ∈ imgs, f.ext ∈ supportedExts) (i m : PyFile) (s : String) :
    (s ∈ wiStyles (scan imgs motives styles ex outdir) i m ↔
      (i ∈ imgs ∧ m ∈ motives ∧ s ∈ styles ∧
        ex (outPathFor outdir m.stem i.stem s) = false)) ∧
    (wiStyles (scan imgs motives styles ex outdir) i m).Nodup := by
  constructor
  · rw [mem_scan]
    constructor
    · rintro ⟨h1, h2, h3, h4, h5⟩
      exact ⟨h1, h3, h4, h5⟩
    · rintro ⟨h1, h3, h4, h5⟩
      exact ⟨h1, h _ h1, h3, h4, h5⟩
  · exact scan_nodup imgs motives styles ex outdir i m

/-- Witness for C1 at the concrete two wallpapers, three masks, four styles
and five already present outputs. -/
theorem c1_missing_work_scan_witness :
    ("ThroughBlack" ∈ wiStyles (scan cImgs cMotives cStyles cEx "out")
        ⟨"w1", ".jpg"⟩ ⟨"m1", ".svg"⟩ ↔
      ((⟨"w1", ".jpg"⟩ : PyFile) ∈ cImgs ∧ (⟨"m1", ".svg"⟩ : PyFile) ∈ cMotives ∧
        "ThroughBlack" ∈ cStyles ∧
        cEx (outPathFor "out" "m1" "w1" "ThroughBlack") = false)) ∧
    (wiStyles (scan cImgs cMotives cStyles cEx "out")
        ⟨"w1", ".jpg"⟩ ⟨"m1", ".svg"⟩).Nodup :=
  c1_missing_work_scan cImgs cMotives cStyles cEx "out" (by decide)
    ⟨"w1", ".jpg"⟩ ⟨"m1", ".svg"⟩ "ThroughBlack"

/-- Claim C2, evaluated at the failing input of the stale-motive slip: one
wallpaper, two masks, one style, empty output tree.  The triple for mask m1
is in the missing dict, yet the built render list consists of the single task
for mask m2 (the last mask the cache-copy loop visited), so no task writes
the output path of the (w, m1, ThroughBlack) triple. -/
theorem c2_stale_mask_eval :
    "ThroughBlack" ∈ wiStyles (scan cImgs2 cMotives2 cStyles2 (fun _ => false) "out")
      ⟨"w", ".jpg"⟩ ⟨"m1", ".svg"⟩ ∧
    renderTasks (scan cImgs2 cMotives2 cStyles2 (fun _ => false) "out") "out" "" =
      ["out/m2/w/ThroughBlack.jpg"] ∧
    "out/m1/w/ThroughBlack.jpg" ∉
      renderTasks (scan cImgs2 cMotives2 cStyles2 (fun _ => false) "out") "out" "" := by
  decide

/-- Claim C4, evaluated at the same failing input, run twice: the first run
on an empty output tree writes only the stale-motive output for mask m2; the
second run on unchanged inputs then finds the m1 triple still missing and
writes one more final output, so the second run performs a nonzero number of
additional writes. -/
theorem c4_second_run_eval :
    runWrites cImgs2 cMotives2 cStyles2 "out" "" [] = ["out/m2/w/ThroughBlack.jpg"] ∧
    runWrites cImgs2 cMotives2 cStyles2 "out" ""
      (runWrites cImgs2 cMotives2 cStyles2 "out" "" []) = ["out/m1/w/ThroughBlack.jpg"] ∧
    runWrites cImgs2 cMotives2 cStyles2 "out" ""
      (runWrites cImgs2 cMotives2 cStyles2 "out" "" []) ≠ [] := by
  decide
